import Mathlib

/-!
# Formal model of the `pkg/print` and `pkg/standalone` fragment of the CLI

A shallow embedding of the two Go source files `pkg/print/print.go` and
`pkg/standalone/version.go`.

Modelling conventions:

* An `io.Writer` sink is modelled by returning the string the function writes
  (write errors are ignored by the Go code, so the sink itself carries no
  state we need).
* The process-wide globals `logAsJSON` and `runtime.GOOS` are gathered into an
  `Env` value that every reading function receives.
* `fmt.Sprintf(fmtstr, a...)` is an external library call; its result is the
  quantified string `msg` in every definition and theorem ("for every format
  string and arguments" becomes "for every formatted message string").
* `time.Now().UTC()` is an external effect; the rendered timestamp is the
  parameter `now`.
* `exec.Command(...).Output()` is an external effect; its outcome is the
  parameter of type `Except Unit String` (`.error ()` for any invocation
  failure, `.ok out` for captured stdout).
-/

namespace Print

/-- The snapshot of process-wide state read by the reporter: the JSON-mode
flag `logAsJSON` and the value of `runtime.GOOS`. -/
structure Env where
  logAsJSON : Bool
  goos : String
  deriving Repr, DecidableEq

/-- The constant `windowsOS = "windows"` from print.go. -/
def windowsOS : String := "windows"

/-- Lower-case hexadecimal digit, as used by Go's `encoding/json` escaper. -/
def hexDigit (n : Nat) : Char :=
  if n < 10 then Char.ofNat (48 + n) else Char.ofNat (87 + n)

/-- Escaping of a single character per Go's `encoding/json` string encoder
with HTML escaping enabled (the `json.Marshal` default): `"` and `\` are
backslash-escaped, `<`, `>`, `&` become `\u00XX`, `\n`, `\r`, `\t` use their
short forms, other control characters below U+0020 become `\u00XX`, and
U+2028/U+2029 become ` `/` `. -/
def escapeChar (c : Char) : List Char :=
  if c = '"' then ['\\', '"']
  else if c = '\\' then ['\\', '\\']
  else if c = '<' ∨ c = '>' ∨ c = '&' then
    ['\\', 'u', '0', '0', hexDigit (c.toNat / 16), hexDigit (c.toNat % 16)]
  else if c = '\n' then ['\\', 'n']
  else if c = '\r' then ['\\', 'r']
  else if c = '\t' then ['\\', 't']
  else if c.toNat < 32 then
    ['\\', 'u', '0', '0', hexDigit (c.toNat / 16), hexDigit (c.toNat % 16)]
  else if c.toNat = 0x2028 ∨ c.toNat = 0x2029 then
    ['\\', 'u', '2', '0', '2', hexDigit (c.toNat % 16)]
  else [c]

/-- Escape every character of a list, per `encoding/json`. -/
def escapeChars : List Char → List Char
  | [] => []
  | c :: cs => escapeChar c ++ escapeChars cs

/-- A JSON string literal: the escaped content between double quotes. -/
def jsonString (s : String) : String :=
  "\"" ++ String.mk (escapeChars s.data) ++ "\""

/-- One `"name":"value"` member of a JSON object (all fields of the
`jsonLog` struct render as JSON strings). -/
def jsonField (p : String × String) : String :=
  jsonString p.1 ++ ":" ++ jsonString p.2

/-- A JSON object with the given string-valued fields, in order, exactly as
`encoding/json` lays it out (no spaces). -/
def jsonObject (fields : List (String × String)) : String :=
  "\x7b" ++ String.intercalate "," (fields.map jsonField) ++ "\x7d"

/-- Predicate: `s` contains no newline character, i.e. it occupies exactly one output
line when followed by a terminating `"\n"`. -/
abbrev NoNL (s : String) : Prop := '\n' ∉ s.data

/-- Model of `json.Marshal(&l)` for the `jsonLog` struct (Time, Status, Message) with
tags `time`, `status`, `msg`, in declaration order. Marshalling a struct of a
time and two strings cannot fail, hence the unconditional `Except.ok`; the
error branch of `logJSON` is still modelled by `logJSONCore` below. -/
def jsonMarshalLog (now status message : String) : Except Unit String :=
  Except.ok (jsonObject [("time", now), ("status", status), ("msg", message)])

/-- The tail of `logJSON` in print.go, abstracted over the marshalling
outcome: on error, fall back to `fmt.Fprintln(w, message)` (the raw message
plus a newline, no JSON wrapper); on success, `fmt.Fprintf(w, "%s\n", bytes)`. -/
def logJSONCore (marshalRes : Except Unit String) (message : String) : String :=
  match marshalRes with
  | Except.error _ => message ++ "\n"
  | Except.ok jsonBytes => jsonBytes ++ "\n"

/-- The function `logJSON(w, status, message)` from print.go: marshal the log record and
write it followed by a newline. -/
def logJSON (now status message : String) : String :=
  logJSONCore (jsonMarshalLog now status message) message

/-- The function `SuccessStatusEvent` from print.go. `msg` stands for
`fmt.Sprintf(fmtstr, a...)`. -/
def SuccessStatusEvent (env : Env) (now msg : String) : String :=
  if env.logAsJSON then logJSON now "success" msg
  else if env.goos = windowsOS then msg ++ "\n"
  else "✅  " ++ msg ++ "\n"

/-- The function `FailureStatusEvent` from print.go. -/
def FailureStatusEvent (env : Env) (now msg : String) : String :=
  if env.logAsJSON then logJSON now "failure" msg
  else if env.goos = windowsOS then msg ++ "\n"
  else "❌  " ++ msg ++ "\n"

/-- The function `WarningStatusEvent` from print.go. -/
def WarningStatusEvent (env : Env) (now msg : String) : String :=
  if env.logAsJSON then logJSON now "warning" msg
  else if env.goos = windowsOS then msg ++ "\n"
  else "⚠  " ++ msg ++ "\n"

/-- The function `PendingStatusEvent` from print.go. -/
def PendingStatusEvent (env : Env) (now msg : String) : String :=
  if env.logAsJSON then logJSON now "pending" msg
  else if env.goos = windowsOS then msg ++ "\n"
  else "⌛  " ++ msg ++ "\n"

/-- The function `InfoStatusEvent` from print.go (the icon is U+2139 followed by the
variation selector U+FE0F, as in the source bytes). -/
def InfoStatusEvent (env : Env) (now msg : String) : String :=
  if env.logAsJSON then logJSON now "info" msg
  else if env.goos = windowsOS then msg ++ "\n"
  else "ℹ️  " ++ msg ++ "\n"

/-- Go's `type Result bool` with `Success = true`, `Failure = false`; a plain
`Bool` in the model. -/
abbrev Result := Bool

/-- The closure state that `Spinner` captures for the function it returns:
the message computed once at creation, whether the windows branch returned
the dummy `func(Result) {}` (which has no guard and no effect), and whether a
`spinner.Spinner` was started (`s != nil`), together with the suffix text the
animation displays in that case. -/
structure SpinnerHandle where
  msg : String
  dummy : Bool
  spinnerSuffix : Option String
  deriving Repr, DecidableEq

/-- The function `Spinner(w, fmtstr, a...)` from print.go, up to the point where it
returns. The result pairs the captured closure state with the output written
to `w` during the call itself. In the JSON branch that output is the
`pending` log line; in the windows branch it is the plain message plus
newline; in the animated branch the `spinner` library owns the writes (the
animation frames, erased again on `Stop`), so the model records the suffix
`"  " ++ msg` it is given rather than time-dependent frame output. -/
def Spinner (env : Env) (now msg : String) : SpinnerHandle × String :=
  if env.logAsJSON then
    (⟨msg, false, none⟩, logJSON now "pending" msg)
  else if env.goos = windowsOS then
    (⟨msg, true, none⟩, msg ++ "\n")
  else
    (⟨msg, false, some ("  " ++ msg)⟩, "")

/-- One invocation of the completion function returned by `Spinner`.
`fired` models the `sync.Once` state (`true` once the guarded body has run).
The dummy windows closure ignores its argument entirely; otherwise the
`once.Do` body runs only when the guard has not fired: it stops the spinner
(no status output) and emits the success or failure status event for the
captured message. Returns the new guard state and the output written. -/
def completionCall (env : Env) (h : SpinnerHandle) (now : String)
    (fired : Bool) (result : Result) : Bool × String :=
  if h.dummy then (fired, "")
  else if fired then (true, "")
  else (true, if result then SuccessStatusEvent env now h.msg
              else FailureStatusEvent env now h.msg)

/-- A sequence of invocations of the completion function, in the order the
`sync.Once` guard serialises them; returns the concatenation of everything
written. -/
def completionRun (env : Env) (h : SpinnerHandle) (now : String) :
    Bool → List Result → String
  | _, [] => ""
  | fired, r :: rs =>
    let step := completionCall env h now fired r
    step.2 ++ completionRun env h now step.1 rs

/-- The operations of the fragment, as they touch the process-wide
`logAsJSON` flag: `EnableJSONFormat` is the only writer (it sets the flag to
`true`); every status event, `Spinner`, and `IsJSONLogEnabled` only read it. -/
inductive Op where
  | enableJSONFormat
  | successEvent
  | failureEvent
  | warningEvent
  | pendingEvent
  | infoEvent
  | spinnerStart
  | isJSONLogEnabled
  deriving Repr, DecidableEq

/-- Effect of one operation on the `logAsJSON` flag: `EnableJSONFormat` does
`logAsJSON = true`; no other operation writes the flag. -/
def applyOp (flag : Bool) : Op → Bool
  | Op.enableJSONFormat => true
  | _ => flag

/-- The zero value of the package-level `var logAsJSON bool`: `false`,
i.e. human-readable mode. -/
def initLogAsJSON : Bool := false

/-- The flag after a sequence of operations, starting from the package
default. -/
def runOps (ops : List Op) : Bool :=
  ops.foldl applyOp initLogAsJSON

end Print

namespace Standalone

/-- The function `GetRuntimeVersion` from version.go, abstracted over the outcome of
`exec.Command(daprCMD, "--version").Output()` (path resolution via
`defaultDaprBinPath`/`binaryFilePath` is an external collaborator and does
not affect the returned string). -/
def GetRuntimeVersion (execRes : Except Unit String) : String :=
  match execRes with
  | Except.error _ => "n/a\n"
  | Except.ok out => out

/-- The function `GetDashboardVersion` from version.go, same contract for the dashboard
binary. -/
def GetDashboardVersion (execRes : Except Unit String) : String :=
  match execRes with
  | Except.error _ => "n/a\n"
  | Except.ok out => out

/-- The `dropCR` step of `bufio.ScanLines`: drop one trailing carriage
return from a token. -/
def dropCR (s : String) : String :=
  match s.data.getLast? with
  | some '\r' => String.mk s.data.dropLast
  | _ => s

/-- Split a character sequence at every `'\n'` (Go's `bufio.ScanLines` scans
for the byte `0x0A`, which in valid UTF-8 only occurs as the character
`'\n'`); `acc` holds the current token's characters in reverse. Always
produces one final (possibly empty) segment after the last newline. -/
def splitLinesAux : List Char → List Char → List String
  | [], acc => [String.mk acc.reverse]
  | c :: cs, acc =>
    if c = '\n' then String.mk acc.reverse :: splitLinesAux cs []
    else splitLinesAux cs (c :: acc)

/-- All segments of `s` between newlines, including a final segment after
the last newline (so `""` gives `[""]` and `"a\n"` gives `["a", ""]`). -/
def splitNewline (s : String) : List String :=
  splitLinesAux s.data []

/-- The token sequence produced by `bufio.NewScanner` with the default
`ScanLines` split function on the given input: split at every `\n`, drop a
trailing `\r` from each token, and produce no final token for the empty
tail after a terminating newline (empty input yields no tokens at all). -/
def scanLines (s : String) : List String :=
  let parts := splitNewline s
  let parts := if parts.getLast? = some "" then parts.dropLast else parts
  parts.map dropCR

/-- The function `GetBuildInfo(version)` from version.go. `gitcommit` and `gitversion`
are the build-time injected package variables; `buildInfoRes` is the outcome
of `exec.Command(daprCMD, "--build-info").Output()` and `versionRes` that of
the `--version` retry (consulted only when the first fails). -/
def GetBuildInfo (gitcommit gitversion version : String)
    (buildInfoRes versionRes : Except Unit String) : String :=
  let strs := ["CLI:",
    "\tVersion: " ++ version,
    "\tGit Commit: " ++ gitcommit,
    "\tGit Version: " ++ gitversion,
    "Runtime:"]
  let outRes := match buildInfoRes with
    | Except.ok out => Except.ok out
    | Except.error _ => versionRes
  let strs := match outRes with
    | Except.error _ => strs ++ ["\tN/A"]
    | Except.ok out => strs ++ (scanLines out).map (fun line => "\t" ++ line)
  String.intercalate "\n" strs

end Standalone

namespace Standalone

/-- C4: `GetRuntimeVersion` and `GetDashboardVersion` return the literal
`"n/a\n"` whenever invoking the target binary with `--version` fails for any
reason, and otherwise return the captured standard output exactly as
produced by the binary. -/
theorem getVersion_fallback_and_passthrough :
    (∀ e : Unit, GetRuntimeVersion (Except.error e) = "n/a\n" ∧
      GetDashboardVersion (Except.error e) = "n/a\n") ∧
    ∀ out : String, GetRuntimeVersion (Except.ok out) = out ∧
      GetDashboardVersion (Except.ok out) = out :=
  ⟨fun _ => ⟨rfl, rfl⟩, fun _ => ⟨rfl, rfl⟩⟩

/-- C3: `GetBuildInfo` builds the report as the lines `CLI:`, tab-indented
Version/Git Commit/Git Version lines, then `Runtime:`; for the runtime
section it first invokes the runtime binary with `--build-info`, on failure
retries with `--version`, and if both fail appends a single tab-indented
`N/A` line; if either succeeds, each line of the captured output is appended
tab-indented and in order; all lines are joined with `String.intercalate
"\n"`, which appends no trailing newline. -/
theorem getBuildInfo_report (gc gv v : String) (bi vr : Except Unit String) :
    (bi = Except.error () → vr = Except.error () →
      GetBuildInfo gc gv v bi vr = String.intercalate "\n"
        ["CLI:", "\tVersion: " ++ v, "\tGit Commit: " ++ gc,
         "\tGit Version: " ++ gv, "Runtime:", "\tN/A"]) ∧
    (∀ out, bi = Except.ok out →
      GetBuildInfo gc gv v bi vr = String.intercalate "\n"
        (["CLI:", "\tVersion: " ++ v, "\tGit Commit: " ++ gc,
          "\tGit Version: " ++ gv, "Runtime:"] ++
          (scanLines out).map (fun line => "\t" ++ line))) ∧
    (∀ out, bi = Except.error () → vr = Except.ok out →
      GetBuildInfo gc gv v bi vr = String.intercalate "\n"
        (["CLI:", "\tVersion: " ++ v, "\tGit Commit: " ++ gc,
          "\tGit Version: " ++ gv, "Runtime:"] ++
          (scanLines out).map (fun line => "\t" ++ line))) := by
  refine ⟨fun h1 h2 => ?_, fun out h => ?_, fun out h1 h2 => ?_⟩ <;> subst_vars <;> rfl

/-- Witness for C3 at the spec's own example: `--build-info` fails,
`--version` succeeds with output `"Runtime: 1.0.0\n"`. -/
theorem getBuildInfo_report_witness :
    GetBuildInfo "abc123" "v1.0.0-rc" "1.0.0" (Except.error ())
        (Except.ok "Runtime: 1.0.0\n") =
      "CLI:\n\tVersion: 1.0.0\n\tGit Commit: abc123\n\tGit Version: v1.0.0-rc\nRuntime:\n\tRuntime: 1.0.0" := by
  have h := (getBuildInfo_report "abc123" "v1.0.0-rc" "1.0.0" (Except.error ())
      (Except.ok "Runtime: 1.0.0\n")).2.2 "Runtime: 1.0.0\n" rfl rfl
  rw [h]; rfl

/-- C10: if the runtime binary invocation succeeds but its captured standard
output is empty, the report consists of exactly the five header lines and
ends with the bare line `Runtime:` — no tab-indented content lines and no
`\tN/A` line are appended (shown both for `--build-info` succeeding empty
and for the `--version` retry succeeding empty). -/
theorem getBuildInfo_empty_runtime_output (gc gv v : String) (vr : Except Unit String) :
    GetBuildInfo gc gv v (Except.ok "") vr = String.intercalate "\n"
      ["CLI:", "\tVersion: " ++ v, "\tGit Commit: " ++ gc,
       "\tGit Version: " ++ gv, "Runtime:"] ∧
    GetBuildInfo gc gv v (Except.error ()) (Except.ok "") = String.intercalate "\n"
      ["CLI:", "\tVersion: " ++ v, "\tGit Commit: " ++ gc,
       "\tGit Version: " ++ gv, "Runtime:"] :=
  ⟨rfl, rfl⟩

end Standalone

namespace Print

/-- Every operation maps the flag value `true` to `true`: nothing resets the
JSON flag. -/
theorem applyOp_true (op : Op) : applyOp true op = true := by
  cases op <;> rfl

/-- Folding any operation sequence from an enabled flag leaves it enabled. -/
theorem foldl_applyOp_true (ops : List Op) : ops.foldl applyOp true = true := by
  induction ops with
  | nil => rfl
  | cons op ops ih => rw [List.foldl_cons, applyOp_true]; exact ih

/-- C7: the process-wide output-mode flag defaults to human-readable
(`false`); `EnableJSONFormat` is idempotent; and after any occurrence of
`EnableJSONFormat` in the operation sequence the flag stays `true` through
every subsequent reporter/spinner operation — no operation resets it. -/
theorem json_flag_default_and_sticky :
    runOps [] = false ∧
    (∀ flag : Bool, applyOp (applyOp flag Op.enableJSONFormat) Op.enableJSONFormat =
      applyOp flag Op.enableJSONFormat) ∧
    ∀ pre post : List Op, runOps (pre ++ Op.enableJSONFormat :: post) = true := by
  refine ⟨rfl, fun _ => rfl, fun pre post => ?_⟩
  unfold runOps
  rw [List.foldl_append, List.foldl_cons,
    show applyOp (List.foldl applyOp initLogAsJSON pre) Op.enableJSONFormat = true from rfl]
  exact foldl_applyOp_true post

/-- C8: no public operation surfaces an error. The JSON serialization
failure branch of `logJSON` falls back to writing the raw message followed
by a newline with no JSON wrapper; the realised marshalling path always
succeeds, producing the JSON line; and the version prober converts every
invocation failure into the plain fallback string. -/
theorem no_error_surfaced_fallbacks (message : String) :
    logJSONCore (Except.error ()) message = message ++ "\n" ∧
    (∀ now status : String, logJSON now status message =
      jsonObject [("time", now), ("status", status), ("msg", message)] ++ "\n") ∧
    ∀ e : Unit, Standalone.GetRuntimeVersion (Except.error e) = "n/a\n" ∧
      Standalone.GetDashboardVersion (Except.error e) = "n/a\n" :=
  ⟨rfl, fun _ _ => rfl, fun _ => ⟨rfl, rfl⟩⟩

/-- Once the `sync.Once` guard has fired, any further sequence of completion
invocations writes nothing at all. -/
theorem completionRun_fired (env : Env) (h : SpinnerHandle) (now : String) :
    ∀ rs : List Result, completionRun env h now true rs = "" := by
  intro rs
  induction rs with
  | nil => rfl
  | cons r rs ih =>
    show (completionCall env h now true r).2 ++
      completionRun env h now (completionCall env h now true r).1 rs = ""
    have hstep : completionCall env h now true r = (true, "") := by
      unfold completionCall
      by_cases hd : h.dummy <;> simp [hd]
    rw [hstep]
    simpa using ih

/-- The dummy completion function returned on the console-limited platform
writes nothing regardless of guard state and arguments. -/
theorem completionRun_dummy (env : Env) (h : SpinnerHandle) (now : String)
    (hd : h.dummy = true) : ∀ (fired : Bool) (rs : List Result),
    completionRun env h now fired rs = "" := by
  intro fired rs
  induction rs generalizing fired with
  | nil => rfl
  | cons r rs ih =>
    show (completionCall env h now fired r).2 ++
      completionRun env h now (completionCall env h now fired r).1 rs = ""
    have hstep : completionCall env h now fired r = (fired, "") := by
      unfold completionCall
      simp [hd]
    rw [hstep]
    simpa using ih fired

/-- In JSON mode or on a non-limited platform, `Spinner` does not return the
dummy closure. -/
theorem spinner_handle_not_dummy (env : Env) (now msg : String)
    (hmode : env.logAsJSON = true ∨ env.goos ≠ windowsOS) :
    (Spinner env now msg).1.dummy = false := by
  unfold Spinner
  rcases hmode with hj | hw
  · simp [hj]
  · by_cases hj : env.logAsJSON <;> simp [hj, hw]

/-- The closure returned by `Spinner` captures exactly the message computed
at creation time. -/
theorem spinner_handle_msg (env : Env) (now msg : String) :
    (Spinner env now msg).1.msg = msg := by
  unfold Spinner
  by_cases hj : env.logAsJSON <;> by_cases hw : env.goos = windowsOS <;> simp [hj, hw]

/-- C1: for every message and sink, whenever the completion function
returned by `Spinner` carries the one-shot guard (JSON mode or non-limited
platform), invoking it with any nonempty sequence of success/failure
arguments emits exactly the one status line of the first invocation — the
call that acquires the guard — and every invocation after the guard has
fired writes nothing. -/
theorem spinner_completion_exactly_once (env : Env) (now msg : String)
    (r : Result) (rs : List Result)
    (hmode : env.logAsJSON = true ∨ env.goos ≠ windowsOS) :
    completionRun env (Spinner env now msg).1 now false (r :: rs) =
      (if r then SuccessStatusEvent env now msg
       else FailureStatusEvent env now msg) ∧
    ∀ later : List Result,
      completionRun env (Spinner env now msg).1 now true later = "" := by
  have hd := spinner_handle_not_dummy env now msg hmode
  have hmsg := spinner_handle_msg env now msg
  constructor
  · show (completionCall env (Spinner env now msg).1 now false r).2 ++
      completionRun env (Spinner env now msg).1 now
        (completionCall env (Spinner env now msg).1 now false r).1 rs = _
    have hstep : completionCall env (Spinner env now msg).1 now false r =
        (true, if r then SuccessStatusEvent env now msg
               else FailureStatusEvent env now msg) := by
      unfold completionCall
      simp [hd, hmsg]
    rw [hstep, completionRun_fired env _ now rs, String.append_empty]
  · exact completionRun_fired env _ now

/-- Witness for C1: three invocations (success, failure, success) on a
non-limited platform in human mode emit exactly the first call's success
line. -/
theorem spinner_completion_exactly_once_witness :
    completionRun ⟨false, "linux"⟩ (Spinner ⟨false, "linux"⟩ "t0" "building").1 "t0"
      false [true, false, true] = "✅  building\n" := by
  have h := (spinner_completion_exactly_once ⟨false, "linux"⟩ "t0" "building"
    true [false, true] (Or.inr (by decide))).1
  rw [h]; rfl

/-- C5: the message is computed once at `Spinner` creation time: the closure
stores it, the pending display (the JSON `pending` line, or the animation
suffix) shows it, and the first completion invocation emits the success or
failure status event for that very message. -/
theorem spinner_message_computed_once (env : Env) (now msg : String) (r : Result)
    (hmode : env.logAsJSON = true ∨ env.goos ≠ windowsOS) :
    (Spinner env now msg).1.msg = msg ∧
    (env.logAsJSON = true → (Spinner env now msg).2 = logJSON now "pending" msg) ∧
    (env.logAsJSON = false → env.goos ≠ windowsOS →
      (Spinner env now msg).1.spinnerSuffix = some ("  " ++ msg)) ∧
    (completionCall env (Spinner env now msg).1 now false r).2 =
      (if r then SuccessStatusEvent env now msg
       else FailureStatusEvent env now msg) := by
  have hd := spinner_handle_not_dummy env now msg hmode
  have hmsg := spinner_handle_msg env now msg
  refine ⟨hmsg, fun hj => ?_, fun hj hw => ?_, ?_⟩
  · unfold Spinner; simp [hj]
  · unfold Spinner; simp [hj, hw]
  · unfold completionCall
    simp [hd, hmsg]

/-- Witness for C5: in JSON mode, the first completion invocation with a
failure argument emits the failure status event for the creation-time
message. -/
theorem spinner_message_computed_once_witness :
    (completionCall ⟨true, "linux"⟩ (Spinner ⟨true, "linux"⟩ "t0" "deploy").1 "t0"
      false false).2 = FailureStatusEvent ⟨true, "linux"⟩ "t0" "deploy" := by
  have h := (spinner_message_computed_once ⟨true, "linux"⟩ "t0" "deploy" false
    (Or.inl rfl)).2.2.2
  exact h.trans rfl

/-- C9: on the console-limited (windows) platform variant in human mode,
every status-event function writes the plain formatted message with a
trailing newline and no icon, and `Spinner` immediately prints the plain
message and returns the dummy completion function, which never writes
anything — no success/failure line is ever emitted by it. -/
theorem windows_limited_behaviour (env : Env) (hj : env.logAsJSON = false)
    (hw : env.goos = windowsOS) (now msg : String) :
    SuccessStatusEvent env now msg = msg ++ "\n" ∧
    FailureStatusEvent env now msg = msg ++ "\n" ∧
    WarningStatusEvent env now msg = msg ++ "\n" ∧
    PendingStatusEvent env now msg = msg ++ "\n" ∧
    InfoStatusEvent env now msg = msg ++ "\n" ∧
    (Spinner env now msg).2 = msg ++ "\n" ∧
    (Spinner env now msg).1.dummy = true ∧
    ∀ (fired : Bool) (rs : List Result),
      completionRun env (Spinner env now msg).1 now fired rs = "" := by
  have hdummy : (Spinner env now msg).1.dummy = true := by
    unfold Spinner; simp [hj, hw]
  refine ⟨?_, ?_, ?_, ?_, ?_, ?_, hdummy, completionRun_dummy env _ now hdummy⟩ <;>
    simp [SuccessStatusEvent, FailureStatusEvent, WarningStatusEvent,
      PendingStatusEvent, InfoStatusEvent, Spinner, hj, hw]

/-- Witness for C9 on the limited platform: the success event is the bare
message plus newline, and two completion invocations write nothing. -/
theorem windows_limited_behaviour_witness :
    SuccessStatusEvent ⟨false, "windows"⟩ "t0" "done" = "done\n" ∧
    completionRun ⟨false, "windows"⟩ (Spinner ⟨false, "windows"⟩ "t0" "done").1 "t0"
      false [true, false] = "" := by
  have h := windows_limited_behaviour ⟨false, "windows"⟩ rfl rfl "t0" "done"
  exact ⟨h.1, h.2.2.2.2.2.2.2 false [true, false]⟩

/-- The hexadecimal digits emitted inside `\u00XX` escapes are never a
newline. -/
theorem hexDigit_ne_newline : ∀ n, n < 16 → hexDigit n ≠ '\n' := by decide

/-- The `encoding/json` escaping never leaves a raw newline in the fragment
emitted for a single character. -/
theorem newline_not_mem_escapeChar (c : Char) : '\n' ∉ escapeChar c := by
  unfold escapeChar
  split_ifs with h1 h2 h3 h4 h5 h6 h7 h8
  · decide
  · decide
  · rcases h3 with h | h | h <;> subst h <;> decide
  · decide
  · decide
  · decide
  · intro hmem
    simp only [List.mem_cons, List.not_mem_nil, or_false] at hmem
    rcases hmem with h | h | h | h | h | h
    · exact absurd h.symm (by decide)
    · exact absurd h.symm (by decide)
    · exact absurd h.symm (by decide)
    · exact absurd h.symm (by decide)
    · exact absurd h.symm (hexDigit_ne_newline _ (Nat.div_lt_of_lt_mul (by omega)))
    · exact absurd h.symm (hexDigit_ne_newline _ (Nat.mod_lt _ (by norm_num)))
  · rcases h8 with h | h <;>
      · intro hmem
        simp only [List.mem_cons, List.not_mem_nil, or_false] at hmem
        rw [h] at hmem
        revert hmem
        decide
  · intro hmem
    simp only [List.mem_cons, List.not_mem_nil, or_false] at hmem
    exact h4 (hmem.symm)

/-- The `encoding/json` escaping never leaves a raw newline in an escaped
character sequence. -/
theorem newline_not_mem_escapeChars (l : List Char) : '\n' ∉ escapeChars l := by
  induction l with
  | nil => simp [escapeChars]
  | cons c cs ih =>
    unfold escapeChars
    intro hmem
    rcases List.mem_append.mp hmem with h | h
    · exact newline_not_mem_escapeChar c h
    · exact ih h

/-- Concatenation preserves freedom from newlines. -/
theorem noNL_append {a b : String} (ha : NoNL a) (hb : NoNL b) : NoNL (a ++ b) := by
  unfold NoNL at *
  rw [String.data_append]
  intro hmem
  rcases List.mem_append.mp hmem with h | h
  · exact ha h
  · exact hb h

/-- A rendered JSON string literal contains no raw newline, whatever the
source string contains. -/
theorem noNL_jsonString (s : String) : NoNL (jsonString s) := by
  unfold jsonString
  refine noNL_append (noNL_append ?_ ?_) ?_
  · show '\n' ∉ ("\"" : String).data
    decide
  · show '\n' ∉ escapeChars s.data
    exact newline_not_mem_escapeChars s.data
  · show '\n' ∉ ("\"" : String).data
    decide

/-- A rendered JSON object member contains no raw newline. -/
theorem noNL_jsonField (p : String × String) : NoNL (jsonField p) :=
  noNL_append (noNL_append (noNL_jsonString p.1) (by decide)) (noNL_jsonString p.2)

/-- Unfolding of `String.intercalate` on a three-element list. -/
theorem intercalate_three (s x y z : String) :
    String.intercalate s [x, y, z] = x ++ s ++ y ++ s ++ z := by
  simp [String.intercalate, String.intercalate.go]

/-- A rendered three-field JSON object contains no raw newline. -/
theorem noNL_jsonObject3 (a b c : String × String) : NoNL (jsonObject [a, b, c]) := by
  unfold jsonObject
  rw [List.map_cons, List.map_cons, List.map_cons, List.map_nil, intercalate_three]
  refine noNL_append (noNL_append (by decide) ?_) (by decide)
  exact noNL_append (noNL_append (noNL_append (noNL_append (noNL_jsonField a) (by decide))
    (noNL_jsonField b)) (by decide)) (noNL_jsonField c)

/-- C2: with JSON mode enabled, each of the five status-event functions
writes the serialization of a JSON object whose `status` field is the
function's severity tag and whose `msg` field is the formatted message,
followed by a terminating newline; the serialized object itself contains no
newline, so the output is exactly one line. -/
theorem json_mode_status_events (env : Env) (hj : env.logAsJSON = true)
    (now msg : String) :
    (SuccessStatusEvent env now msg =
        jsonObject [("time", now), ("status", "success"), ("msg", msg)] ++ "\n" ∧
      NoNL (jsonObject [("time", now), ("status", "success"), ("msg", msg)])) ∧
    (FailureStatusEvent env now msg =
        jsonObject [("time", now), ("status", "failure"), ("msg", msg)] ++ "\n" ∧
      NoNL (jsonObject [("time", now), ("status", "failure"), ("msg", msg)])) ∧
    (WarningStatusEvent env now msg =
        jsonObject [("time", now), ("status", "warning"), ("msg", msg)] ++ "\n" ∧
      NoNL (jsonObject [("time", now), ("status", "warning"), ("msg", msg)])) ∧
    (PendingStatusEvent env now msg =
        jsonObject [("time", now), ("status", "pending"), ("msg", msg)] ++ "\n" ∧
      NoNL (jsonObject [("time", now), ("status", "pending"), ("msg", msg)])) ∧
    (InfoStatusEvent env now msg =
        jsonObject [("time", now), ("status", "info"), ("msg", msg)] ++ "\n" ∧
      NoNL (jsonObject [("time", now), ("status", "info"), ("msg", msg)])) := by
  refine ⟨⟨?_, noNL_jsonObject3 _ _ _⟩, ⟨?_, noNL_jsonObject3 _ _ _⟩,
    ⟨?_, noNL_jsonObject3 _ _ _⟩, ⟨?_, noNL_jsonObject3 _ _ _⟩,
    ⟨?_, noNL_jsonObject3 _ _ _⟩⟩ <;>
    simp [SuccessStatusEvent, FailureStatusEvent, WarningStatusEvent, PendingStatusEvent,
      InfoStatusEvent, hj, logJSON, jsonMarshalLog, logJSONCore]

/-- Witness for C2: the success event in JSON mode at a concrete timestamp
and message. -/
theorem json_mode_status_events_witness :
    SuccessStatusEvent ⟨true, "linux"⟩ "2021-01-01T00:00:00Z" "all good" =
      jsonObject [("time", "2021-01-01T00:00:00Z"), ("status", "success"),
        ("msg", "all good")] ++ "\n" :=
  ((json_mode_status_events ⟨true, "linux"⟩ rfl "2021-01-01T00:00:00Z" "all good").1).1

/-- C6: in human mode on a non-limited platform, each status-event function
writes the tag-specific icon, two spaces, the formatted message, and a
terminating newline (success: check-mark U+2705, failure: cross-mark U+274C,
warning: warning-sign U+26A0, pending: hourglass U+231B, info:
information-sign U+2139 U+FE0F). -/
theorem human_mode_status_events (env : Env) (hj : env.logAsJSON = false)
    (hw : env.goos ≠ windowsOS) (now msg : String) :
    SuccessStatusEvent env now msg = "✅" ++ "  " ++ msg ++ "\n" ∧
    FailureStatusEvent env now msg = "❌" ++ "  " ++ msg ++ "\n" ∧
    WarningStatusEvent env now msg = "⚠" ++ "  " ++ msg ++ "\n" ∧
    PendingStatusEvent env now msg = "⌛" ++ "  " ++ msg ++ "\n" ∧
    InfoStatusEvent env now msg = "ℹ️" ++ "  " ++ msg ++ "\n" := by
  refine ⟨?_, ?_, ?_, ?_, ?_⟩ <;>
    · simp only [SuccessStatusEvent, FailureStatusEvent, WarningStatusEvent,
        PendingStatusEvent, InfoStatusEvent, hj, hw, Bool.false_eq_true,
        if_false, ite_false, if_neg]
      rfl

/-- Witness for C6: the warning event in human mode on a non-limited
platform. -/
theorem human_mode_status_events_witness :
    WarningStatusEvent ⟨false, "linux"⟩ "t0" "low disk" = "⚠" ++ "  " ++ "low disk" ++ "\n" :=
  (human_mode_status_events ⟨false, "linux"⟩ rfl (by decide) "t0" "low disk").2.2.1

end Print
